import Mathlib

/-!
# Verification of the stridetastic mesh packet engine

Shallow embedding of the core packet-processing code of `stridetastic_api`
(route-segment reconstruction, probe/latency correlation, reactive rate
limiting, envelope crafting, outbound publishing, periodic-job execution,
node-info handling and channel-key selection), together with theorems
settling the specification claims about it.

Python `None` is modelled with `Option`, dictionaries with association
functions/lists, database tables with lists of records, timestamps with
integer milliseconds, and exceptions with `Except`/sum results.
-/

namespace Stridetastic

/-! ## Route reconstruction: `build_edge_segments`
(`mesh/packet/handler.py`, inner function of `handle_route_discovery`)

A resolved hop sequence is a `List (Option N)`: `some n` is a known node,
`none` is the unknown/broadcast placeholder.  A produced segment is
`(source, target, snr?, hop_count)`.  The Python `for index, node in
enumerate(nodes)` loop is translated as a structural recursion on the
remaining entries carrying the running index. -/

/-- One emitted edge segment: source node, target node, optional SNR,
synthetic hop count. -/
abbrev Segment (N S : Type) := N × N × Option S × Nat

/-- Loop body of `build_edge_segments`, walking the remaining entries while
carrying the current `index`, the index of the last known node
(`last_known_index`), the running count of intervening unknown placeholders
(`unknown_between`), and the accumulated `segments`. -/
def buildEdgeSegmentsAux (nodes : List (Option N)) (snrValues : List S) :
    Nat → List (Option N) → Option Nat → Nat → List (Segment N S) → List (Segment N S)
  | _, [], _, _, segments => segments
  | index, node :: rest, lastKnownIndex, unknownBetween, segments =>
    match node with
    | none =>
      match lastKnownIndex with
      | some j =>
        if index < nodes.length - 1 then
          buildEdgeSegmentsAux nodes snrValues (index + 1) rest (some j) (unknownBetween + 1) segments
        else
          buildEdgeSegmentsAux nodes snrValues (index + 1) rest (some j) unknownBetween segments
      | none =>
        buildEdgeSegmentsAux nodes snrValues (index + 1) rest none unknownBetween segments
    | some target =>
      match lastKnownIndex with
      | none =>
        buildEdgeSegmentsAux nodes snrValues (index + 1) rest (some index) 0 segments
      | some sourceIndex =>
        let hopCount := unknownBetween
        if hopCount = 0 ∧ snrValues.length ≤ sourceIndex then
          buildEdgeSegmentsAux nodes snrValues (index + 1) rest (some index) 0 segments
        else
          let snrValue : Option S := if hopCount = 0 then snrValues[sourceIndex]? else none
          match nodes[sourceIndex]? with
          | some (some source) =>
            buildEdgeSegmentsAux nodes snrValues (index + 1) rest (some index) 0
              (segments ++ [(source, target, snrValue, hopCount)])
          | _ =>
            buildEdgeSegmentsAux nodes snrValues (index + 1) rest (some index) 0 segments

/-- `build_edge_segments(nodes, snr_values)`: collapse broadcast placeholders
into synthetic hop segments between known nodes. -/
def buildEdgeSegments (nodes : List (Option N)) (snrValues : List S) : List (Segment N S) :=
  buildEdgeSegmentsAux nodes snrValues 0 nodes none 0 []

/-! ### Specification-side description of the segment builder

`specSegments` restates the emission rule declaratively: known entries are
the `(index, node)` pairs of the non-placeholder positions; for every pair of
*consecutive* known entries `(j, a)` and `(i, b)` the hop count is the number
of placeholders strictly between them, `i - j - 1`; the segment rule decides
emission and SNR attachment from the hop count and the SNR list. -/

/-- The `(index, node)` pairs of the known (non-placeholder) entries. -/
def knownEntriesFrom (start : Nat) (nodes : List (Option N)) : List (Nat × N) :=
  (nodes.enumFrom start).filterMap fun p => p.2.map fun n => (p.1, n)

/-- Known entries of the whole sequence. -/
def knownEntries (nodes : List (Option N)) : List (Nat × N) :=
  knownEntriesFrom 0 nodes

/-- Adjacent pairs of a list: `[a, b, c] ↦ [(a, b), (b, c)]`. -/
def consecutivePairs : List α → List (α × α)
  | a :: b :: rest => (a, b) :: consecutivePairs (b :: rest)
  | _ => []

/-- Emission rule for one pair of consecutive known entries, as the code
implements it: with `hop_count = 0` the segment is produced only when the SNR
list has a value at the source index (and that value is attached); with
`hop_count > 0` the segment is produced with SNR absent. -/
def segRule (snrValues : List S) (j : Nat) (a b : N) (hopCount : Nat) :
    Option (Segment N S) :=
  if hopCount = 0 then
    match snrValues[j]? with
    | some s => some (a, b, some s, 0)
    | none => none
  else
    some (a, b, none, hopCount)

/-- Declarative restatement of the segment builder: apply `segRule` to every
pair of consecutive known entries, with hop count the number of placeholders
strictly between them. -/
def specSegments (nodes : List (Option N)) (snrValues : List S) : List (Segment N S) :=
  (consecutivePairs (knownEntries nodes)).filterMap fun q =>
    segRule snrValues q.1.1 q.1.2 q.2.2 (q.2.1 - q.1.1 - 1)

/-! ## Generic list helper: update the first matching row
(Django's pattern of `filter(...).first()` followed by `save()` on the
fetched row mutates only the first match.) -/

/-- Replace the first element satisfying `p` by its image under `f`. -/
def updateFirst (p : α → Bool) (f : α → α) : List α → List α
  | [] => []
  | x :: xs => if p x then f x :: xs else x :: updateFirst p f xs

/-! ## Probe/latency correlation
(`services/publisher_service.py` `publish_traceroute`,
`mesh/packet/handler.py` `_process_probe_response` and
`_update_latency_history`)

Timestamps are modelled as integer milliseconds; the Python
`int(delta.total_seconds() * 1000)` is then exact integer subtraction. -/

/-- `Node` row: identity plus the latency snapshot fields touched by probe
correlation. -/
structure NodeRec where
  nodeId : String
  latencyReachable : Bool
  latencyMs : Option Int
deriving DecidableEq, Repr

/-- `NodeLatencyHistory` row.  Modelled from the spec for the fields of the
entity (the model class itself is not part of the embedded sources):
`probe_message_id` (optional), `reachable`, `latency_ms`, `responded_at`,
creation `time`. -/
structure HistoryRec where
  node : String
  reachable : Bool
  latencyMs : Option Int
  probeMessageId : Option Nat
  respondedAt : Option Int
  time : Int
deriving DecidableEq, Repr

/-- `PacketData` row fields used by correlation. -/
structure PacketDataRec where
  requestId : Option Nat
  gotResponse : Option Bool
deriving DecidableEq, Repr

/-- `Packet` row fields used by correlation; `data` is the optional
one-to-one `PacketData`. -/
structure PacketRec where
  packetId : Nat
  fromNode : String
  toNode : String
  time : Option Int
  ackd : Option Bool
  data : Option PacketDataRec
deriving DecidableEq, Repr

/-- The domain store slice consumed by probe correlation. -/
structure Store where
  nodes : List NodeRec
  packets : List PacketRec
  history : List HistoryRec
deriving DecidableEq, Repr

/-- Predicate for a still-pending latency history row
(`reachable=False, latency_ms IS NULL, responded_at IS NULL`). -/
def isPendingRow (nodeId : String) (h : HistoryRec) : Bool :=
  (h.node == nodeId) && (h.reachable == false) && h.latencyMs.isNone && h.respondedAt.isNone

/-- Index of the oldest (smallest creation `time`, earliest row on ties)
pending history row for `nodeId`: `filter(...pending...).order_by("time").first()`. -/
def oldestPendingIdx (history : List HistoryRec) (nodeId : String) : Option Nat :=
  ((history.enum.filter (fun p => isPendingRow nodeId p.2)).foldl
    (fun best p =>
      match best with
      | none => some p
      | some q => if p.2.time < q.2.time then some p else some q)
    none).map (fun p => p.1)

/-- Field updates `_update_latency_history` applies to the chosen pending
row. -/
def resolveHistoryRow (h : HistoryRec) (probeMessageId : Option Nat)
    (latencyMs : Option Int) (respondedAt : Int) : HistoryRec :=
  { h with
    reachable := true
    latencyMs := latencyMs
    respondedAt := some respondedAt
    probeMessageId :=
      if h.probeMessageId.isNone ∧ probeMessageId.isSome then probeMessageId
      else h.probeMessageId }

/-- `_update_latency_history`: prefer the row whose `probe_message_id`
matches, else the oldest pending row, else create a new resolved row (with
creation time `request_time` when known, else now). -/
def updateLatencyHistory (history : List HistoryRec) (nodeId : String)
    (probeMessageId : Option Nat) (latencyMs : Option Int) (respondedAt : Int)
    (requestTime : Option Int) (now : Int) : List HistoryRec :=
  let matchIdx : Option Nat :=
    match probeMessageId with
    | some pmid =>
      history.findIdx? (fun h => (h.node == nodeId) && (h.probeMessageId == some pmid))
    | none => none
  let chosenIdx : Option Nat :=
    match matchIdx with
    | some i => some i
    | none => oldestPendingIdx history nodeId
  match chosenIdx with
  | some i =>
    match history[i]? with
    | some h => history.set i (resolveHistoryRow h probeMessageId latencyMs respondedAt)
    | none => history
  | none =>
    history ++ [{ node := nodeId, reachable := true, latencyMs := latencyMs,
                  probeMessageId := probeMessageId, respondedAt := some respondedAt,
                  time := requestTime.getD now }]

/-- Inbound envelope fields consumed by `_process_probe_response`. -/
structure IncomingPacket where
  fromNode : String
  time : Option Int
deriving DecidableEq, Repr

/-- Inbound `PacketData` view consumed by `_process_probe_response`. -/
structure IncomingData where
  requestId : Option Nat
  packet : IncomingPacket
deriving DecidableEq, Repr

/-- The row filter used to locate the original outbound request:
`packet_id == request_id ∧ to_node == incoming.from_node`. -/
def origRequestFilter (requestId : Nat) (sender : String) (p : PacketRec) : Bool :=
  (p.packetId == requestId) && (p.toNode == sender)

/-- Updates applied to the located original packet: `ackd = True` and
`data.got_response = True` (when a `PacketData` row exists). -/
def markRequestResponded (p : PacketRec) : PacketRec :=
  { p with
    ackd := some true
    data := p.data.map (fun d => { d with gotResponse := some true }) }

/-- `_process_probe_response`: correlate an inbound packet carrying a
`request_id` with the original outbound packet addressed to the replying
node, mark it responded, and refresh the replying node's latency snapshot
and latency history. -/
def processProbeResponse (store : Store) (incoming : IncomingData) (now : Int) : Store :=
  match incoming.requestId with
  | none => store
  | some requestId =>
    match store.packets.find? (origRequestFilter requestId incoming.packet.fromNode) with
    | none => store
    | some ackdPacket =>
      let requestTime := ackdPacket.time
      let responseTime := incoming.packet.time
      let latencyMs : Option Int :=
        match requestTime, responseTime with
        | some rt, some pt => some (max 0 (pt - rt))
        | _, _ => none
      let respondedAt : Int := responseTime.getD now
      { nodes := store.nodes.map (fun n =>
          if n.nodeId == ackdPacket.toNode then
            { n with latencyReachable := true, latencyMs := latencyMs }
          else n)
        packets := updateFirst (origRequestFilter requestId incoming.packet.fromNode)
          markRequestResponded store.packets
        history := updateLatencyHistory store.history ackdPacket.toNode
          (some ackdPacket.packetId) latencyMs respondedAt requestTime now }

/-- `PublisherService.publish_traceroute`, domain-store effect: on a
successful publish with `record_pending` and an existing target node, reset
the node's latency snapshot and append a pending `NodeLatencyHistory` row
keyed by the new packet id.  Returns `(store, published, message_id?)`. -/
def publishTraceroute (store : Store) (toNode : String) (messageId : Nat)
    (published : Bool) (recordPending : Bool) (now : Int) : Store × Bool × Option Nat :=
  if published then
    let store' :=
      if recordPending then
        match store.nodes.find? (fun n => n.nodeId == toNode) with
        | some _ =>
          { store with
            nodes := store.nodes.map (fun n =>
              if n.nodeId == toNode then
                { n with latencyReachable := false, latencyMs := none }
              else n)
            history := store.history ++
              [{ node := toNode, reachable := false, latencyMs := none,
                 probeMessageId := some messageId, respondedAt := none, time := now }] }
        | none => store
      else store
    (store', true, some messageId)
  else (store, false, none)

/-! ## Reactive rate limiting
(`services/publisher_service.py` `PublisherService._should_inject_for_node`) -/

/-- Per-node attempt tracking entry `{count, first, last}`. -/
structure AttemptData where
  count : Nat
  first : Int
  last : Int
deriving DecidableEq, Repr

/-- The `_reactive_attempts` dictionary. -/
abbrev AttemptMap := String → Option AttemptData

/-- `_should_inject_for_node`: rolling-window rate limiter.  Returns the
decision and the updated attempts dictionary. -/
def shouldInjectForNode (attempts : AttemptMap) (nodeId : String)
    (configMaxTries : Int) (attemptWindow : Int) (now : Int) : Bool × AttemptMap :=
  if nodeId = "" then (false, attempts)
  else
    let maxTries := max 0 configMaxTries
    if maxTries = 0 then (false, attempts)
    else
      match attempts nodeId with
      | none =>
        (true, fun n => if n = nodeId then some ⟨1, now, now⟩ else attempts n)
      | some data =>
        if attemptWindow ≤ now - data.first then
          (true, fun n => if n = nodeId then some ⟨1, now, now⟩ else attempts n)
        else if data.count < maxTries.toNat then
          (true, fun n => if n = nodeId then some ⟨data.count + 1, data.first, now⟩ else attempts n)
        else
          (false, attempts)

/-! ## Direct-edge hop delta (`mesh/packet/handler.py` `on_message`) -/

/-- The hop delta stored on the direct edge, exactly as computed:
`0 if hop_limit is None else (hop_start - hop_limit) if hop_start is not None
else 0`. -/
def onMessageHops (hopStart hopLimit : Option Int) : Int :=
  match hopLimit with
  | none => 0
  | some hl =>
    match hopStart with
    | some hs => hs - hl
    | none => 0

/-- `Edge` row fields touched by the direct-edge upsert. -/
structure EdgeRec where
  sourceNode : Nat
  targetNode : Nat
  lastRxRssi : Option Int
  lastRxSnr : Option Int
  lastHops : Int
deriving DecidableEq, Repr

/-- `Edge.objects.get_or_create(source, target)` followed by assigning the
signal fields and saving. -/
def upsertDirectEdge (edges : List EdgeRec) (fromNode gatewayNode : Nat)
    (rxRssi rxSnr : Option Int) (hops : Int) : List EdgeRec :=
  let edgeKey := fun e => (e.sourceNode == fromNode) && (e.targetNode == gatewayNode)
  if (edges.find? edgeKey).isSome then
    updateFirst edgeKey
      (fun e => { e with lastRxRssi := rxRssi, lastRxSnr := rxSnr, lastHops := hops }) edges
  else
    edges ++ [{ sourceNode := fromNode, targetNode := gatewayNode,
                lastRxRssi := rxRssi, lastRxSnr := rxSnr, lastHops := hops }]

/-- The direct-edge step of `on_message`: upsert
`Edge(from_node -> gateway_node)` when a gateway is known, storing this
packet's signal metrics and the hop delta. -/
def onMessageDirectEdge (edges : List EdgeRec) (fromNode : Nat)
    (gatewayNode : Option Nat) (rxRssi rxSnr : Option Int)
    (hopStart hopLimit : Option Int) : List EdgeRec :=
  match gatewayNode with
  | some gw => upsertDirectEdge edges fromNode gw rxRssi rxSnr (onMessageHops hopStart hopLimit)
  | none => edges

/-! ## Envelope crafting (`mesh/packet/crafter.py` `craft_mesh_packet`)

`generate_hash`, `encrypt_message`, `load_public_key_bytes` and `id_to_num`
are external utilities consumed by the crafter; they enter the embedding as
function parameters, so every theorem below holds for any implementation of
them. -/

/-- Payload slot of a crafted mesh packet: empty, decoded plaintext, or
ciphertext. -/
inductive MeshPayload (B : Type) where
  | empty
  | decoded (data : B)
  | encrypted (ciphertext : B)
deriving DecidableEq, Repr

/-- The crafted envelope fields. -/
structure MeshPacket (B : Type) where
  id : Nat
  fromNum : Nat
  toNum : Nat
  channel : Nat
  hopLimit : Int
  hopStart : Int
  wantAck : Bool
  pkiEncrypted : Bool
  publicKey : Option B
  payload : MeshPayload B
deriving DecidableEq, Repr

/-- `craft_mesh_packet`: build the outbound envelope; PKI mode forces
channel 0 and requires a pre-encrypted payload, otherwise the channel is the
hash of `(channel_name, channel_aes_key)` and the payload is plaintext for
an empty key or symmetric ciphertext otherwise. -/
def craftMeshPacket (idToNum : String → Nat) (generateHash : String → String → Nat)
    (loadPublicKeyBytes : String → Except String B)
    (encryptMessage : String → String → Nat → Nat → B → B)
    (fromId toId : String) (channelName channelAesKey : String)
    (globalMessageId : Nat) (dataProtobuf : B) (hopLimit hopStart : Int)
    (wantAck : Bool) (pkiEncrypted : Bool) (publicKey : Option String)
    (encryptedPayload : Option B) : Except String (MeshPacket B) := do
  let fromNum := idToNum fromId
  let toNum := idToNum toId
  let channel : Nat := if ¬ pkiEncrypted then generateHash channelName channelAesKey else 0
  let publicKeyBytes : Option B ←
    match publicKey with
    | some pk =>
      match loadPublicKeyBytes pk with
      | .ok bytes => pure (some bytes)
      | .error e => throw ("Invalid public key material: " ++ e)
    | none => pure none
  let base : MeshPacket B :=
    { id := globalMessageId, fromNum := fromNum, toNum := toNum, channel := channel,
      hopLimit := hopLimit, hopStart := hopStart, wantAck := wantAck,
      pkiEncrypted := pkiEncrypted, publicKey := publicKeyBytes, payload := .empty }
  if pkiEncrypted then
    match encryptedPayload with
    | none => throw "Encrypted payload must be provided for PKI packets"
    | some ciphertext => pure { base with channel := 0, payload := .encrypted ciphertext }
  else if channelAesKey = "" then
    pure { base with payload := .decoded dataProtobuf }
  else
    let ciphertext := encryptMessage channelName channelAesKey globalMessageId fromNum dataProtobuf
    pure { base with payload := MeshPayload.encrypted ciphertext }

/-! ## Outbound publish (`services/publisher_service.py` `PublisherService.publish`) -/

/-- A transport capability as seen by `publish`: its connection state and
what its own `publish` call would return. -/
structure PublisherCap where
  connected : Bool
  publishReturn : Bool
deriving DecidableEq, Repr

/-- Result of calling `PublisherService.publish`: either an exception
propagates or a boolean is returned. -/
inductive PublishOutcome where
  | raised (message : String)
  | returned (value : Bool)
deriving DecidableEq, Repr

/-- `PublisherService.publish`: `active = publisher or self._publisher`;
raise when none is configured; return `False` when not connected; otherwise
return the transport's own publish result. -/
def publisherServicePublish (explicitPublisher defaultPublisher : Option PublisherCap) :
    PublishOutcome :=
  match explicitPublisher.orElse (fun _ => defaultPublisher) with
  | none => .raised "No publisher configured for PublisherService"
  | some activePublisher =>
    if ¬ activePublisher.connected then .returned false
    else .returned activePublisher.publishReturn

/-! ## Periodic job execution
(`tasks/publisher_tasks.py` `execute_periodic_publish_job` and
`process_periodic_publish_jobs`; `models/publisher_models.py` mark helpers) -/

/-- `PublisherPeriodicJob.last_status` values. -/
inductive RunStatus where
  | idle
  | success
  | error
  | skipped
deriving DecidableEq, Repr

/-- `PublisherPeriodicJob` row: scheduling policy fields plus run
bookkeeping. -/
structure JobRec where
  enabled : Bool
  periodSeconds : Nat
  nextRunAt : Int
  lastRunAt : Option Int
  lastStatus : RunStatus
  lastErrorMessage : String
deriving DecidableEq, Repr

/-- `PublisherPeriodicJob.mark_success` (called without a message). -/
def markSuccess (job : JobRec) (now : Int) : JobRec :=
  { job with lastRunAt := some now, lastStatus := .success, lastErrorMessage := "" }

/-- `PublisherPeriodicJob.mark_failure`. -/
def markFailure (job : JobRec) (errorMessage : String) (now : Int) : JobRec :=
  { job with
    lastRunAt := some now
    lastStatus := RunStatus.error
    lastErrorMessage := errorMessage.take 2048 }

/-- `PublisherPeriodicJob.mark_skipped`. -/
def markSkipped (job : JobRec) (message : String) (now : Int) : JobRec :=
  { job with lastRunAt := some now, lastStatus := .skipped, lastErrorMessage := message }

/-- Outcome of the underlying `execute_periodic_job` publish dispatch: it
returned `True`, returned `False`, or raised. -/
inductive PublishAttempt where
  | ok
  | failed
  | raised (message : String)
deriving DecidableEq, Repr

/-- `execute_periodic_publish_job` on an existing job: skip when disabled,
fail on interface-resolution error (`resolveError`), otherwise record the
dispatch outcome.  Returns the updated job row and the task's boolean. -/
def executePeriodicPublishJob (job : JobRec) (resolveError : Option String)
    (attempt : PublishAttempt) (now : Int) : JobRec × Bool :=
  if ¬ job.enabled then (markSkipped job "Job disabled" now, false)
  else
    match resolveError with
    | some err => (markFailure job err now, false)
    | none =>
      match attempt with
      | .raised msg => (markFailure job msg now, false)
      | .ok => (markSuccess job now, true)
      | .failed => (markFailure job "Publisher publish returned False" now, false)

/-- `PublisherPeriodicJob.get_period_timedelta` (seconds, floored at the
30-second minimum). -/
def getPeriodTimedelta (job : JobRec) : Nat :=
  max job.periodSeconds 30

/-- The due-job claim step of `process_periodic_publish_jobs`: every
enabled, due job has `next_run_at` advanced to `now + period` before its
execution is dispatched (the per-tick batch cap is not modelled). -/
def claimDueJobs (jobs : List JobRec) (now : Int) : List JobRec :=
  jobs.map (fun job =>
    if job.enabled ∧ job.nextRunAt ≤ now then
      { job with nextRunAt := now + (getPeriodTimedelta job : Int) }
    else job)

/-! ## NodeInfo handling (`mesh/packet/handler.py` `handle_nodeinfo`)

`base64.b64encode` enters as a function parameter. -/

/-- `Node` identity fields overwritten by `handle_nodeinfo`. -/
structure NodeIdentity where
  longName : Option String
  shortName : Option String
  hwModel : Option String
  role : Option String
  macAddress : Option String
  publicKey : Option String
deriving DecidableEq, Repr

/-- Decoded `User` payload fields (proto3 strings default to `""` when
absent; `hwModel`/`role` carry the results of the numeric-to-name lookups,
`none` for unknown numbers). -/
structure UserPayload where
  longName : String
  shortName : String
  hwModel : Option String
  role : Option String
  publicKey : String
deriving DecidableEq, Repr

/-- The node patch of `handle_nodeinfo` for an already-known node: every
identity field is overwritten from the payload, empty values becoming null
(`mac_address` alone keeps its old value when the derived MAC is empty). -/
def handleNodeinfoNodeUpdate (b64encode : String → String) (node : NodeIdentity)
    (user : UserPayload) (macaddr : String) : NodeIdentity :=
  let role : String := match user.role with | some r => if r ≠ "" then r else "CLIENT" | none => "CLIENT"
  let pubkey : Option String :=
    if user.publicKey ≠ "" then some (b64encode user.publicKey) else none
  { longName := if user.longName ≠ "" then some user.longName else none
    shortName := if user.shortName ≠ "" then some user.shortName else none
    hwModel := match user.hwModel with
      | some h => if h ≠ "" then some h else none
      | none => none
    role := some role
    macAddress := if macaddr ≠ "" then some macaddr else node.macAddress
    publicKey := match pubkey with
      | some s => if s ≠ "" then some s else none
      | none => none }

/-! ## Channel-key selection for decryption
(`mesh/packet/handler.py` `handle_packet` and `on_message`) -/

/-- The key argument `on_message` passes to `handle_packet`:
`channel.psk if channel.psk else "AQ=="`. -/
def ingestionChannelKey (psk : Option String) : Option String :=
  some (match psk with
        | some s => if s ≠ "" then s else "AQ=="
        | none => "AQ==")

/-- The `key` default in `handle_packet`'s signature. -/
def handlePacketDefaultKey : Option String :=
  some "AQ=="

/-- What `handle_packet` does with an encrypted, non-PKI payload: attempt
symmetric decryption when a key is present, skip ("No key provided") only
when the key argument is `None`. -/
inductive SymmetricDecryptStep where
  | attempted (key : String)
  | skippedNoKey
deriving DecidableEq, Repr

/-- Decryption decision of `handle_packet` for an encrypted, non-PKI
packet. -/
def handlePacketSymmetricStep (key : Option String) : SymmetricDecryptStep :=
  match key with
  | some k => .attempted k
  | none => .skippedNoKey

/-! ### Equivalence of the walk with the declarative description -/

lemma drop_succ_eq {l : List α} {t : Nat} {x : α} {rest : List α} (h : l.drop t = x :: rest) :
    l.drop (t + 1) = rest := by
  have h1 := List.drop_drop 1 t l
  rw [h] at h1
  simpa using h1.symm

lemma getElem?_of_drop_cons {l : List α} {t : Nat} {x : α} {rest : List α}
    (h : l.drop t = x :: rest) : l[t]? = some x := by
  have h1 := List.getElem?_drop l t 0
  rw [h] at h1
  simpa using h1.symm

lemma knownEntriesFrom_cons_none (t : Nat) (rest : List (Option N)) :
    knownEntriesFrom t (none :: rest) = knownEntriesFrom (t + 1) rest := by
  simp [knownEntriesFrom, List.enumFrom_cons]

lemma knownEntriesFrom_cons_some (t : Nat) (b : N) (rest : List (Option N)) :
    knownEntriesFrom t (some b :: rest) = (t, b) :: knownEntriesFrom (t + 1) rest := by
  simp [knownEntriesFrom, List.enumFrom_cons]

/-- Walk invariant once a last known node exists: processing the suffix
`rest` (starting at position `t`, last known node `a` at position `j`, running
unknown count `u = t - j - 1`) appends exactly the rule-filtered consecutive
pairs of the remaining known entries. -/
lemma buildEdgeSegmentsAux_known (snrValues : List S) :
    ∀ (rest : List (Option N)) (nodes : List (Option N)) (t j u : Nat) (a : N)
      (segments : List (Segment N S)),
    nodes.drop t = rest → nodes[j]? = some (some a) → j < t → u = t - j - 1 →
    buildEdgeSegmentsAux nodes snrValues t rest (some j) u segments =
      segments ++ (consecutivePairs ((j, a) :: knownEntriesFrom t rest)).filterMap
        (fun q => segRule snrValues q.1.1 q.1.2 q.2.2 (q.2.1 - q.1.1 - 1))
  | [], nodes, t, j, u, a, segments, hdrop, hj, hjt, hu => by
    simp [buildEdgeSegmentsAux, knownEntriesFrom, consecutivePairs]
  | none :: rest', nodes, t, j, u, a, segments, hdrop, hj, hjt, hu => by
    rw [buildEdgeSegmentsAux]
    by_cases hlt : t < nodes.length - 1
    · rw [if_pos hlt]
      rw [buildEdgeSegmentsAux_known snrValues rest' nodes (t + 1) j (u + 1) a segments
        (drop_succ_eq hdrop) hj (by omega) (by omega)]
      rw [knownEntriesFrom_cons_none]
    · rw [if_neg hlt]
      have hlen : (nodes.drop t).length = nodes.length - t := List.length_drop t nodes
      rw [hdrop] at hlen
      simp only [List.length_cons] at hlen
      have hrest : rest' = [] := by
        have : rest'.length = 0 := by omega
        exact List.length_eq_zero.mp this
      subst hrest
      simp [buildEdgeSegmentsAux, knownEntriesFrom, List.enumFrom_cons, consecutivePairs]
  | some b :: rest', nodes, t, j, u, a, segments, hdrop, hj, hjt, hu => by
    rw [buildEdgeSegmentsAux]
    have hb : nodes[t]? = some (some b) := getElem?_of_drop_cons hdrop
    by_cases hskip : u = 0 ∧ snrValues.length ≤ j
    · simp only [if_pos hskip]
      rw [buildEdgeSegmentsAux_known snrValues rest' nodes (t + 1) t 0 b segments
        (drop_succ_eq hdrop) hb (by omega) (by omega)]
      rw [knownEntriesFrom_cons_some, consecutivePairs]
      have hrule : segRule snrValues j a b (t - j - 1) = (none : Option (Segment N S)) := by
        rw [segRule, if_pos (by omega : t - j - 1 = 0), List.getElem?_eq_none hskip.2]
      rw [List.filterMap_cons, hrule]
    · simp only [if_neg hskip, hj]
      rw [buildEdgeSegmentsAux_known snrValues rest' nodes (t + 1) t 0 b
        (segments ++ [(a, b, if u = 0 then snrValues[j]? else none, u)])
        (drop_succ_eq hdrop) hb (by omega) (by omega)]
      rw [knownEntriesFrom_cons_some, consecutivePairs, List.filterMap_cons]
      have hrule : segRule snrValues j a b (t - j - 1) =
          some (a, b, if u = 0 then snrValues[j]? else none, u) := by
        by_cases h0 : u = 0
        · have hjlen : j < snrValues.length := by
            by_contra hcon
            exact hskip ⟨h0, Nat.le_of_not_lt hcon⟩
          subst h0
          rw [segRule, if_pos (by omega : t - j - 1 = 0)]
          rw [List.getElem?_eq_getElem hjlen]
          simp [List.getElem?_eq_getElem hjlen]
        · rw [segRule, if_neg (by omega : ¬ t - j - 1 = 0), ← hu]
          simp [h0]
      rw [hrule]
      simp
  termination_by rest => rest.length

/-- Walk invariant before any known node has been met. -/
lemma buildEdgeSegmentsAux_start (snrValues : List S) :
    ∀ (rest : List (Option N)) (nodes : List (Option N)) (t u : Nat)
      (segments : List (Segment N S)),
    nodes.drop t = rest →
    buildEdgeSegmentsAux nodes snrValues t rest none u segments =
      segments ++ (consecutivePairs (knownEntriesFrom t rest)).filterMap
        (fun q => segRule snrValues q.1.1 q.1.2 q.2.2 (q.2.1 - q.1.1 - 1))
  | [], nodes, t, u, segments, hdrop => by
    simp [buildEdgeSegmentsAux, knownEntriesFrom, consecutivePairs]
  | none :: rest', nodes, t, u, segments, hdrop => by
    rw [buildEdgeSegmentsAux]
    rw [buildEdgeSegmentsAux_start snrValues rest' nodes (t + 1) u segments (drop_succ_eq hdrop)]
    rw [knownEntriesFrom_cons_none]
  | some b :: rest', nodes, t, u, segments, hdrop => by
    rw [buildEdgeSegmentsAux]
    have hb : nodes[t]? = some (some b) := getElem?_of_drop_cons hdrop
    rw [buildEdgeSegmentsAux_known snrValues rest' nodes (t + 1) t 0 b segments
      (drop_succ_eq hdrop) hb (by omega) (by omega)]
    rw [knownEntriesFrom_cons_some]
  termination_by rest => rest.length

/-- The segment builder of the code coincides with the declarative
consecutive-known-pairs description. -/
theorem buildEdgeSegments_eq_specSegments (nodes : List (Option N)) (snrValues : List S) :
    buildEdgeSegments nodes snrValues = specSegments nodes snrValues := by
  rw [buildEdgeSegments, specSegments, knownEntries,
    buildEdgeSegmentsAux_start snrValues nodes nodes 0 0 [] (by simp)]
  simp

/-- Known entries ignore trailing placeholder padding. -/
lemma knownEntriesFrom_append_replicate_none (t k : Nat) (nodes : List (Option N)) :
    knownEntriesFrom t (nodes ++ List.replicate k none) = knownEntriesFrom t nodes := by
  rw [knownEntriesFrom, List.enumFrom_append, List.filterMap_append]
  have hrep : ∀ (k' t' : Nat),
      ((List.replicate k' (none : Option N)).enumFrom t').filterMap
        (fun p => p.2.map fun n => (p.1, n)) = [] := by
    intro k'
    induction k' with
    | zero => intro t'; rfl
    | succ m ih => intro t'; simp [List.replicate, List.enumFrom_cons, ih]
  rw [hrep]
  simp [knownEntriesFrom]

end Stridetastic

namespace Stridetastic

/-! Sanity checks on small concrete inputs (kept as anonymous examples). -/

example : buildEdgeSegments [some 1, none, none, some 2] ([] : List Int) =
    [(1, 2, none, 2)] := by rfl

example : buildEdgeSegments [some 1, some 2, some 3] ([] : List Int) = [] := by rfl

example : buildEdgeSegments [some 1, some 2, some 3] ([8, 9] : List Int) =
    [(1, 2, some 8, 0), (2, 3, some 9, 0)] := by rfl

example : buildEdgeSegments [none, some 1] ([5, 6] : List Int) = [] := by rfl

example : buildEdgeSegments [some 1, none] ([5, 6] : List Int) = [] := by rfl

example : specSegments [some 1, none, none, some 2] ([] : List Int) =
    [(1, 2, none, 2)] := by rfl

example : specSegments [some 1, some 2, some 3] ([] : List Int) = [] := by rfl

example : specSegments [some 1, some 2, some 3] ([8, 9] : List Int) =
    [(1, 2, some 8, 0), (2, 3, some 9, 0)] := by rfl

end Stridetastic

namespace Stridetastic

/-! ## Claim theorems -/

/-- **C1** (counterexample): contrary to the claim, on input `[A, B, C]` with
an *empty* SNR list the builder emits zero segments, not two — a zero-hop
segment whose source index has no SNR value is dropped entirely, not emitted
with SNR absent. -/
theorem segment_builder_empty_snr_drops_segments :
    (buildEdgeSegments [some 1, some 2, some 3] ([] : List Int)).length ≠ 2 := by
  decide

/-- **C1** (amended): the segment builder is exactly the declarative rule on
consecutive known entries: hop count is the number of placeholders in
between; with hop count 0 a segment is emitted iff the SNR list has a value
at the source index (which is then attached); with positive hop count it is
emitted with SNR absent.  In particular `[A, B, C]` yields the two zero-hop
segments exactly when the SNR list has at least two values, and no segment
for the empty SNR list. -/
theorem segment_builder_emission_rule {N S : Type} (nodes : List (Option N))
    (snrValues : List S) (a b c : N) (s0 s1 : S) (srest : List S) :
    buildEdgeSegments nodes snrValues = specSegments nodes snrValues ∧
    buildEdgeSegments [some a, some b, some c] (s0 :: s1 :: srest) =
      [(a, b, some s0, 0), (b, c, some s1, 0)] ∧
    buildEdgeSegments [some a, some b, some c] ([] : List S) = [] := by
  refine ⟨buildEdgeSegments_eq_specSegments nodes snrValues, ?_, ?_⟩ <;>
    · simp only [buildEdgeSegments, buildEdgeSegmentsAux]
      norm_num

/-- `find?` returns the first match of a decomposed list. -/
lemma find?_first_match (p : α → Bool) (x : α) :
    ∀ (pre post : List α), (∀ y ∈ pre, p y = false) → p x = true →
    List.find? p (pre ++ x :: post) = some x
  | [], post, hpre, hx => by simp [List.find?_cons_of_pos _ hx]
  | y :: pre', post, hpre, hx => by
    have hy : p y = false := hpre y (by simp)
    rw [List.cons_append, List.find?_cons_of_neg _ (by simp [hy])]
    exact find?_first_match p x pre' post (fun z hz => hpre z (by simp [hz])) hx

/-- `updateFirst` rewrites exactly the first match of a decomposed list. -/
lemma updateFirst_first_match (p : α → Bool) (f : α → α) (x : α) :
    ∀ (pre post : List α), (∀ y ∈ pre, p y = false) → p x = true →
    updateFirst p f (pre ++ x :: post) = pre ++ f x :: post
  | [], post, hpre, hx => by simp [updateFirst, hx]
  | y :: pre', post, hpre, hx => by
    have hy : p y = false := hpre y (by simp)
    simp only [List.cons_append, updateFirst, hy]
    simp only [Bool.false_eq_true, if_false, List.cons.injEq, true_and]
    exact updateFirst_first_match p f x pre' post (fun z hz => hpre z (by simp [hz])) hx

/-- **C3**: probe correlation round trip.  A successful `publish_traceroute`
with `record_pending` and an existing target node returns the new packet id
and appends a pending `NodeLatencyHistory` row (`reachable = false`,
`latency_ms = null`, `probe_message_id` = the packet id); a later inbound
packet whose `request_id` equals that packet id and whose sender is the
original packet's `to_node` marks the original packet `ackd` and its
`PacketData.got_response`, and sets the replying node's
`latency_reachable = true` with
`latency_ms = max 0 (response time - request time)`, which is
non-negative. -/
theorem probe_correlation_round_trip
    (s0 s2 : Store) (toNode sender : String) (messageId : Nat) (now1 now2 : Int)
    (target : NodeRec) (pre post : List PacketRec) (orig : PacketRec)
    (d : PacketDataRec) (n : NodeRec) (reqT respT : Int)
    (hfound : s0.nodes.find? (fun nd => nd.nodeId == toNode) = some target)
    (hpackets : s2.packets = pre ++ orig :: post)
    (hpre : ∀ p ∈ pre, origRequestFilter messageId sender p = false)
    (hpid : orig.packetId = messageId) (hto : orig.toNode = sender)
    (hdata : orig.data = some d) (htime : orig.time = some reqT)
    (hn : n ∈ s2.nodes) (hnid : n.nodeId = orig.toNode) :
    (publishTraceroute s0 toNode messageId true true now1).2.1 = true ∧
    (publishTraceroute s0 toNode messageId true true now1).2.2 = some messageId ∧
    (publishTraceroute s0 toNode messageId true true now1).1.history =
      s0.history ++ [{ node := toNode, reachable := false, latencyMs := none,
                       probeMessageId := some messageId, respondedAt := none,
                       time := now1 }] ∧
    (processProbeResponse s2 ⟨some messageId, ⟨sender, some respT⟩⟩ now2).packets =
      pre ++ ({ orig with
                ackd := some true
                data := some { d with gotResponse := some true } } :: post) ∧
    { n with latencyReachable := true, latencyMs := some (max 0 (respT - reqT)) } ∈
      (processProbeResponse s2 ⟨some messageId, ⟨sender, some respT⟩⟩ now2).nodes ∧
    0 ≤ max 0 (respT - reqT) := by
  have horig : origRequestFilter messageId sender orig = true := by
    simp [origRequestFilter, hpid, hto]
  have hfind : s2.packets.find? (origRequestFilter messageId sender) = some orig := by
    rw [hpackets]
    exact find?_first_match _ _ _ _ hpre horig
  have hstore : processProbeResponse s2 ⟨some messageId, ⟨sender, some respT⟩⟩ now2 =
      { nodes := s2.nodes.map (fun nd =>
          if nd.nodeId == orig.toNode then
            { nd with latencyReachable := true, latencyMs := some (max 0 (respT - reqT)) }
          else nd)
        packets := updateFirst (origRequestFilter messageId sender) markRequestResponded
          s2.packets
        history := updateLatencyHistory s2.history orig.toNode (some orig.packetId)
          (some (max 0 (respT - reqT))) respT (some reqT) now2 } := by
    simp only [processProbeResponse, hfind, htime, Option.getD_some]
  refine ⟨?_, ?_, ?_, ?_, ?_, le_max_left 0 _⟩
  · simp [publishTraceroute, hfound]
  · simp [publishTraceroute, hfound]
  · simp [publishTraceroute, hfound]
  · rw [hstore]
    show updateFirst (origRequestFilter messageId sender) markRequestResponded s2.packets = _
    rw [hpackets, updateFirst_first_match _ _ _ _ _ hpre horig]
    simp [markRequestResponded, hdata]
  · rw [hstore]
    have hmem := List.mem_map_of_mem (fun nd =>
      if nd.nodeId == orig.toNode then
        { nd with latencyReachable := true, latencyMs := some (max 0 (respT - reqT)) }
      else nd) hn
    simpa [hnid] using hmem

/-- **C3** witness: the round trip evaluated on a concrete store — probe id 7
sent at t=100 ms to node `"!t"`, response received at t=350 ms. -/
theorem probe_correlation_round_trip_witness :
    (processProbeResponse
        ⟨[⟨"!t", false, none⟩],
         [⟨7, "!s", "!t", some 100, some false, some ⟨none, some false⟩⟩], []⟩
        ⟨some 7, ⟨"!t", some 350⟩⟩ 500).packets =
      [⟨7, "!s", "!t", some 100, some true, some ⟨none, some true⟩⟩] ∧
    (publishTraceroute ⟨[⟨"!t", false, none⟩], [], []⟩ "!t" 7 true true 100).1.history =
      [⟨"!t", false, none, some 7, none, 100⟩] ∧
    (0 : Int) ≤ max 0 (350 - 100) := by
  have h := probe_correlation_round_trip
    ⟨[⟨"!t", false, none⟩], [], []⟩
    ⟨[⟨"!t", false, none⟩],
     [⟨7, "!s", "!t", some 100, some false, some ⟨none, some false⟩⟩], []⟩
    "!t" "!t" 7 100 500
    ⟨"!t", false, none⟩
    [] []
    ⟨7, "!s", "!t", some 100, some false, some ⟨none, some false⟩⟩
    ⟨none, some false⟩
    ⟨"!t", false, none⟩
    100 350
    (by simp) rfl (by simp) rfl rfl rfl rfl (by simp) rfl
  exact ⟨h.2.2.2.1, h.2.2.1, h.2.2.2.2.2⟩

/-- Rate limiter, fresh-node step: first sighting inserts `{1, now, now}`
and allows the injection. -/
lemma shouldInject_fresh (m : AttemptMap) (nodeId : String) (cfg w now : Int)
    (hid : nodeId ≠ "") (hcfg : max 0 cfg ≠ 0) (hm : m nodeId = none) :
    shouldInjectForNode m nodeId cfg w now =
      (true, fun n => if n = nodeId then some ⟨1, now, now⟩ else m n) := by
  simp [shouldInjectForNode, hid, hcfg, hm]

/-- Rate limiter, expired-window step: the counter resets to 1 and the
injection is allowed. -/
lemma shouldInject_reset (m : AttemptMap) (nodeId : String) (cfg w now : Int)
    (d : AttemptData) (hid : nodeId ≠ "") (hcfg : max 0 cfg ≠ 0)
    (hd : m nodeId = some d) (hwin : w ≤ now - d.first) :
    shouldInjectForNode m nodeId cfg w now =
      (true, fun n => if n = nodeId then some ⟨1, now, now⟩ else m n) := by
  simp [shouldInjectForNode, hid, hcfg, hd, hwin]

/-- Rate limiter, in-window step below the cap: the counter increments and
the injection is allowed. -/
lemma shouldInject_increment (m : AttemptMap) (nodeId : String) (cfg w now : Int)
    (d : AttemptData) (hid : nodeId ≠ "") (hd : m nodeId = some d)
    (hwin : ¬ w ≤ now - d.first) (hcount : d.count < (max 0 cfg).toNat) :
    shouldInjectForNode m nodeId cfg w now =
      (true, fun n => if n = nodeId then some ⟨d.count + 1, d.first, now⟩ else m n) := by
  have hcfg : ¬ (max 0 cfg = 0) := by
    intro h
    rw [h] at hcount
    simp at hcount
  simp [shouldInjectForNode, hid, hcfg, hd, hwin, hcount]

/-- Rate limiter, in-window step at or above the cap: the injection is
suppressed and the attempts dictionary is unchanged. -/
lemma shouldInject_suppress (m : AttemptMap) (nodeId : String) (cfg w now : Int)
    (d : AttemptData) (hid : nodeId ≠ "") (hd : m nodeId = some d)
    (hwin : ¬ w ≤ now - d.first) (hcount : (max 0 cfg).toNat ≤ d.count) :
    shouldInjectForNode m nodeId cfg w now = (false, m) := by
  by_cases hcfg : max 0 cfg = 0
  · simp [shouldInjectForNode, hid, hcfg]
  · simp [shouldInjectForNode, hid, hcfg, hd, hwin, Nat.not_lt.mpr hcount]

/-- **C4**: reactive rate limiting.  With `max_tries = 2` and window `w`,
three trigger-eligible packets from the same fresh node within `w` allow
exactly two injections and suppress the third; a fourth attempt once `w` has
elapsed from the first attempt resets the counter to 1 and is allowed.  In
general, any attempt for a node whose tracked count has reached `max_tries`
inside the window is suppressed with the tracking state unchanged. -/
theorem reactive_rate_limiting
    (attempts m : AttemptMap) (nodeId : String) (w t1 t2 t3 t4 cfg now : Int)
    (d : AttemptData)
    (hid : nodeId ≠ "") (hfresh : attempts nodeId = none)
    (h2 : t2 - t1 < w) (h3 : t3 - t1 < w) (h4 : w ≤ t4 - t1)
    (hd : m nodeId = some d) (hcount : (max 0 cfg).toNat ≤ d.count)
    (hwin : now - d.first < w) :
    (shouldInjectForNode attempts nodeId 2 w t1).1 = true ∧
    (shouldInjectForNode (shouldInjectForNode attempts nodeId 2 w t1).2
      nodeId 2 w t2).1 = true ∧
    (shouldInjectForNode (shouldInjectForNode (shouldInjectForNode attempts
      nodeId 2 w t1).2 nodeId 2 w t2).2 nodeId 2 w t3).1 = false ∧
    (shouldInjectForNode (shouldInjectForNode (shouldInjectForNode
      (shouldInjectForNode attempts nodeId 2 w t1).2 nodeId 2 w t2).2
      nodeId 2 w t3).2 nodeId 2 w t4).1 = true ∧
    (shouldInjectForNode (shouldInjectForNode (shouldInjectForNode
      (shouldInjectForNode attempts nodeId 2 w t1).2 nodeId 2 w t2).2
      nodeId 2 w t3).2 nodeId 2 w t4).2 nodeId = some ⟨1, t4, t4⟩ ∧
    shouldInjectForNode m nodeId cfg w now = (false, m) := by
  have hcfg2 : max (0 : Int) 2 ≠ 0 := by norm_num
  have e1 := shouldInject_fresh attempts nodeId 2 w t1 hid hcfg2 hfresh
  have b1 : (shouldInjectForNode attempts nodeId 2 w t1).1 = true := by rw [e1]
  have hm1 : (shouldInjectForNode attempts nodeId 2 w t1).2 nodeId = some ⟨1, t1, t1⟩ := by
    rw [e1]
    simp
  have e2 := shouldInject_increment _ nodeId 2 w t2 ⟨1, t1, t1⟩ hid hm1
    (not_le.mpr h2) (by norm_num)
  have b2 : (shouldInjectForNode (shouldInjectForNode attempts nodeId 2 w t1).2
      nodeId 2 w t2).1 = true := by rw [e2]
  have hm2 : (shouldInjectForNode (shouldInjectForNode attempts nodeId 2 w t1).2
      nodeId 2 w t2).2 nodeId = some ⟨2, t1, t2⟩ := by
    rw [e2]
    simp
  have e3 := shouldInject_suppress _ nodeId 2 w t3 ⟨2, t1, t2⟩ hid hm2
    (not_le.mpr h3) (by norm_num)
  have b3 : (shouldInjectForNode (shouldInjectForNode (shouldInjectForNode attempts
      nodeId 2 w t1).2 nodeId 2 w t2).2 nodeId 2 w t3).1 = false := by rw [e3]
  have hm3 : (shouldInjectForNode (shouldInjectForNode (shouldInjectForNode attempts
      nodeId 2 w t1).2 nodeId 2 w t2).2 nodeId 2 w t3).2 nodeId = some ⟨2, t1, t2⟩ := by
    rw [e3]
    exact hm2
  have e4 := shouldInject_reset _ nodeId 2 w t4 ⟨2, t1, t2⟩ hid hcfg2 hm3 h4
  have b4 : (shouldInjectForNode (shouldInjectForNode (shouldInjectForNode
      (shouldInjectForNode attempts nodeId 2 w t1).2 nodeId 2 w t2).2
      nodeId 2 w t3).2 nodeId 2 w t4).1 = true := by rw [e4]
  have hm4 : (shouldInjectForNode (shouldInjectForNode (shouldInjectForNode
      (shouldInjectForNode attempts nodeId 2 w t1).2 nodeId 2 w t2).2
      nodeId 2 w t3).2 nodeId 2 w t4).2 nodeId = some ⟨1, t4, t4⟩ := by
    rw [e4]
    simp
  exact ⟨b1, b2, b3, b4, hm4,
    shouldInject_suppress m nodeId cfg w now d hid hd (not_le.mpr hwin) hcount⟩

/-- **C4** witness: concrete run with `max_tries = 2`, window 900, attempts
at t = 0, 1, 2 and 900, plus a concrete saturated tracking state. -/
theorem reactive_rate_limiting_witness :
    (shouldInjectForNode (fun _ => none) "!a" 2 900 0).1 = true ∧
    (shouldInjectForNode (shouldInjectForNode (fun _ => none) "!a" 2 900 0).2
      "!a" 2 900 1).1 = true ∧
    (shouldInjectForNode (shouldInjectForNode (shouldInjectForNode (fun _ => none)
      "!a" 2 900 0).2 "!a" 2 900 1).2 "!a" 2 900 2).1 = false ∧
    (shouldInjectForNode (shouldInjectForNode (shouldInjectForNode
      (shouldInjectForNode (fun _ => none) "!a" 2 900 0).2 "!a" 2 900 1).2
      "!a" 2 900 2).2 "!a" 2 900 900).1 = true ∧
    (shouldInjectForNode (shouldInjectForNode (shouldInjectForNode
      (shouldInjectForNode (fun _ => none) "!a" 2 900 0).2 "!a" 2 900 1).2
      "!a" 2 900 2).2 "!a" 2 900 900).2 "!a" = some ⟨1, 900, 900⟩ ∧
    shouldInjectForNode (fun n => if n = "!a" then some ⟨2, 0, 0⟩ else none)
      "!a" 2 900 10 =
      (false, fun n => if n = "!a" then some ⟨2, 0, 0⟩ else none) :=
  reactive_rate_limiting (fun _ => none)
    (fun n => if n = "!a" then some ⟨2, 0, 0⟩ else none)
    "!a" 900 0 1 2 900 2 10 ⟨2, 0, 0⟩
    (by decide) rfl (by norm_num) (by norm_num) (by norm_num)
    (by simp) (by norm_num) (by norm_num)

/-- **C5** (counterexample): the direct edge stores a *negative* hop delta
when `hop_start < hop_limit` (here `hop_start = 0`, `hop_limit = 3` gives
`last_hops = -3`), contradicting "never negative". -/
theorem direct_edge_negative_hop_delta :
    onMessageDirectEdge [] 1 (some 2) none none (some 0) (some 3) =
      [{ sourceNode := 1, targetNode := 2, lastRxRssi := none, lastRxSnr := none,
         lastHops := -3 }] ∧ (-3 : Int) < 0 := by
  exact ⟨rfl, by norm_num⟩

/-- **C5** (amended): the direct edge upserted for a known gateway stores
`last_hops = hop_start - hop_limit` when both counters are present (0 when
either is absent); no flooring is applied, so the stored delta is negative
whenever `hop_start < hop_limit`. -/
theorem direct_edge_hop_delta_rule (edges : List EdgeRec) (fromNode gw : Nat)
    (rssi snr : Option Int) (hs hl : Int) (hx : Option Int) :
    onMessageDirectEdge edges fromNode (some gw) rssi snr (some hs) (some hl) =
      upsertDirectEdge edges fromNode gw rssi snr (hs - hl) ∧
    onMessageHops (some hs) (some hl) = hs - hl ∧
    onMessageHops none hx = 0 ∧
    onMessageHops hx none = 0 ∧
    (hs < hl → onMessageHops (some hs) (some hl) < 0) ∧
    onMessageDirectEdge [] fromNode (some gw) rssi snr (some hs) (some hl) =
      [{ sourceNode := fromNode, targetNode := gw, lastRxRssi := rssi,
         lastRxSnr := snr, lastHops := hs - hl }] := by
  refine ⟨rfl, rfl, ?_, ?_, ?_, rfl⟩
  · cases hx <;> rfl
  · cases hx <;> rfl
  · intro h
    simpa [onMessageHops] using sub_neg.mpr h

/-- **C5** witness: the rule at `hop_start = 0, hop_limit = 3` (negative) and
`hop_start = 5, hop_limit = 3` (positive). -/
theorem direct_edge_hop_delta_rule_witness :
    onMessageHops (some 0) (some 3) < 0 ∧
    onMessageHops (some (5 : Int)) (some 3) = 2 := by
  have h0 := direct_edge_hop_delta_rule [] 1 2 none none 0 3 none
  have h5 := direct_edge_hop_delta_rule [] 1 2 none none 5 3 none
  exact ⟨h0.2.2.2.2.1 (by norm_num), by simpa using h5.2.1⟩

/-- **C6**: envelope crafting.  PKI mode forces channel 0 and attaches the
supplied ciphertext, and fails when no ciphertext is supplied; non-PKI mode
stores `hash(channel_name, channel_key)` as the channel and attaches the
plaintext inner payload when the channel key is the empty string, the
symmetric ciphertext otherwise.  The external utilities are parameters, so
this holds for any hash/encryption implementation. -/
theorem craft_mesh_packet_modes {B : Type}
    (idToNum : String → Nat) (generateHash : String → String → Nat)
    (loadPublicKeyBytes : String → Except String B)
    (encryptMessage : String → String → Nat → Nat → B → B)
    (fromId toId channelName channelAesKey : String) (gmid : Nat)
    (dataProtobuf : B) (hopLimit hopStart : Int) (wantAck : Bool)
    (ct : B) (ep : Option B) :
    craftMeshPacket idToNum generateHash loadPublicKeyBytes encryptMessage fromId toId
      channelName channelAesKey gmid dataProtobuf hopLimit hopStart wantAck true
      none none =
      .error "Encrypted payload must be provided for PKI packets" ∧
    craftMeshPacket idToNum generateHash loadPublicKeyBytes encryptMessage fromId toId
      channelName channelAesKey gmid dataProtobuf hopLimit hopStart wantAck true
      none (some ct) =
      .ok { id := gmid, fromNum := idToNum fromId, toNum := idToNum toId, channel := 0,
            hopLimit := hopLimit, hopStart := hopStart, wantAck := wantAck,
            pkiEncrypted := true, publicKey := none, payload := .encrypted ct } ∧
    craftMeshPacket idToNum generateHash loadPublicKeyBytes encryptMessage fromId toId
      channelName "" gmid dataProtobuf hopLimit hopStart wantAck false none ep =
      .ok { id := gmid, fromNum := idToNum fromId, toNum := idToNum toId,
            channel := generateHash channelName "", hopLimit := hopLimit,
            hopStart := hopStart, wantAck := wantAck, pkiEncrypted := false,
            publicKey := none, payload := .decoded dataProtobuf } ∧
    (channelAesKey ≠ "" →
      craftMeshPacket idToNum generateHash loadPublicKeyBytes encryptMessage fromId toId
        channelName channelAesKey gmid dataProtobuf hopLimit hopStart wantAck false
        none ep =
        .ok { id := gmid, fromNum := idToNum fromId, toNum := idToNum toId,
              channel := generateHash channelName channelAesKey, hopLimit := hopLimit,
              hopStart := hopStart, wantAck := wantAck, pkiEncrypted := false,
              publicKey := none,
              payload := .encrypted (encryptMessage channelName channelAesKey gmid
                (idToNum fromId) dataProtobuf) }) := by
  refine ⟨rfl, rfl, rfl, ?_⟩
  intro hkey
  simp only [craftMeshPacket, hkey, if_neg, if_false]
  rfl

/-- **C6** witness: the non-PKI symmetric branch evaluated with a concrete
key and concrete utility functions. -/
theorem craft_mesh_packet_modes_witness :
    craftMeshPacket (fun _ => 9) (fun _ _ => 42) (fun _ => .error "bad")
      (fun _ _ _ _ d => d + 1) "!a" "!b" "LongFast" "key" 5 (10 : Nat)
      3 3 false false none none =
      .ok { id := 5, fromNum := 9, toNum := 9, channel := 42, hopLimit := 3,
            hopStart := 3, wantAck := false, pkiEncrypted := false,
            publicKey := none, payload := .encrypted 11 } := by
  have h := craft_mesh_packet_modes (fun _ => 9) (fun _ _ => 42)
    (fun _ => .error "bad") (fun _ _ _ _ d => d + 1) "!a" "!b" "LongFast" "key"
    5 (10 : Nat) 3 3 false 0 none
  exact h.2.2.2 (by decide)

/-- **C7** (counterexample): with no transport capability configured at all
(`publisher or self._publisher` is `None`), `publish` raises a `RuntimeError`
instead of returning `false`. -/
theorem publish_no_publisher_raises :
    publisherServicePublish none none =
      .raised "No publisher configured for PublisherService" := rfl

/-- **C7** (amended): when a transport capability is configured but reports
not connected, `publish` returns `false` without raising; only when no
capability is configured at all does it raise. -/
theorem publish_unconnected_returns_false
    (explicitPublisher defaultPublisher : Option PublisherCap) (p : PublisherCap)
    (hp : explicitPublisher.orElse (fun _ => defaultPublisher) = some p)
    (hconn : p.connected = false) :
    publisherServicePublish explicitPublisher defaultPublisher = .returned false ∧
    publisherServicePublish none none =
      .raised "No publisher configured for PublisherService" := by
  constructor
  · simp [publisherServicePublish, hp, hconn]
  · rfl

/-- **C7** witness: a disconnected default transport makes `publish` return
`false`. -/
theorem publish_unconnected_returns_false_witness :
    publisherServicePublish none (some ⟨false, true⟩) = .returned false ∧
    publisherServicePublish none none =
      .raised "No publisher configured for PublisherService" :=
  publish_unconnected_returns_false none (some ⟨false, true⟩) ⟨false, true⟩ rfl rfl

/-- **C8**: periodic job execution reports exactly one of success, failure
or skipped, with skipped exactly when the job is disabled; it updates only
the run-bookkeeping fields, never `next_run_at` (nor the policy fields);
`next_run_at` is advanced only by the due-job claim step, which sets it to
`now + period` for every enabled due job. -/
theorem periodic_job_execution_frame
    (job : JobRec) (resolveError : Option String) (attempt : PublishAttempt)
    (now : Int) (jobs : List JobRec) :
    (executePeriodicPublishJob job resolveError attempt now).1.nextRunAt =
      job.nextRunAt ∧
    (executePeriodicPublishJob job resolveError attempt now).1.enabled =
      job.enabled ∧
    (executePeriodicPublishJob job resolveError attempt now).1.periodSeconds =
      job.periodSeconds ∧
    ((executePeriodicPublishJob job resolveError attempt now).1.lastStatus =
        RunStatus.success ∨
     (executePeriodicPublishJob job resolveError attempt now).1.lastStatus =
        RunStatus.error ∨
     (executePeriodicPublishJob job resolveError attempt now).1.lastStatus =
        RunStatus.skipped) ∧
    ((executePeriodicPublishJob job resolveError attempt now).1.lastStatus =
        RunStatus.skipped ↔ job.enabled = false) ∧
    (claimDueJobs jobs now).map (fun j => j.nextRunAt) =
      jobs.map (fun j =>
        if j.enabled ∧ j.nextRunAt ≤ now then now + (getPeriodTimedelta j : Int)
        else j.nextRunAt) := by
  refine ⟨?_, ?_, ?_, ?_, ?_, ?_⟩
  all_goals
    first
    | (cases hj : job.enabled <;>
        cases resolveError <;>
        cases attempt <;>
        simp [executePeriodicPublishJob, markSuccess, markFailure, markSkipped, hj])
    | (rw [claimDueJobs, List.map_map]
       refine List.map_congr_left ?_
       intro j hjmem
       by_cases hc : j.enabled ∧ j.nextRunAt ≤ now <;> simp [hc])

/-- **C9**: `handle_nodeinfo` on an already-known node unconditionally
overwrites `long_name`, `short_name`, `hw_model` and `public_key` from the
payload — the new values do not depend on the prior node state — and empty
payload values become null; in particular a NodeInfo carrying no public key
erases any previously stored public key. -/
theorem nodeinfo_overwrites_identity_fields
    (b64encode : String → String) (node node2 : NodeIdentity) (user : UserPayload)
    (macaddr : String) :
    (handleNodeinfoNodeUpdate b64encode node user macaddr).longName =
      (if user.longName = "" then none else some user.longName) ∧
    (handleNodeinfoNodeUpdate b64encode node user macaddr).shortName =
      (if user.shortName = "" then none else some user.shortName) ∧
    (handleNodeinfoNodeUpdate b64encode node user macaddr).hwModel =
      user.hwModel.bind (fun h => if h = "" then none else some h) ∧
    (user.publicKey = "" →
      (handleNodeinfoNodeUpdate b64encode node user macaddr).publicKey = none) ∧
    ((user.publicKey ≠ "" ∧ b64encode user.publicKey ≠ "") →
      (handleNodeinfoNodeUpdate b64encode node user macaddr).publicKey =
        some (b64encode user.publicKey)) ∧
    (handleNodeinfoNodeUpdate b64encode node user macaddr).longName =
      (handleNodeinfoNodeUpdate b64encode node2 user macaddr).longName ∧
    (handleNodeinfoNodeUpdate b64encode node user macaddr).shortName =
      (handleNodeinfoNodeUpdate b64encode node2 user macaddr).shortName ∧
    (handleNodeinfoNodeUpdate b64encode node user macaddr).hwModel =
      (handleNodeinfoNodeUpdate b64encode node2 user macaddr).hwModel ∧
    (handleNodeinfoNodeUpdate b64encode node user macaddr).publicKey =
      (handleNodeinfoNodeUpdate b64encode node2 user macaddr).publicKey := by
  refine ⟨?_, ?_, ?_, ?_, ?_, rfl, rfl, rfl, rfl⟩
  · by_cases h : user.longName = "" <;> simp [handleNodeinfoNodeUpdate, h]
  · by_cases h : user.shortName = "" <;> simp [handleNodeinfoNodeUpdate, h]
  · cases hm : user.hwModel with
    | none => simp [handleNodeinfoNodeUpdate, hm]
    | some h => by_cases h0 : h = "" <;> simp [handleNodeinfoNodeUpdate, hm, h0]
  · intro h
    simp [handleNodeinfoNodeUpdate, h]
  · intro h
    simp [handleNodeinfoNodeUpdate, h.1, h.2]

/-- **C9** witness: a payload with empty public key erases a stored key and
sets the other fields from the payload. -/
theorem nodeinfo_overwrites_identity_fields_witness :
    (handleNodeinfoNodeUpdate (fun s => s ++ "=")
      ⟨some "old", some "OLD", some "HW", some "CLIENT", some "AA:BB", some "oldkey"⟩
      ⟨"Alice", "ALCE", some "HELTEC", some "ROUTER", ""⟩ "AA:BB").publicKey = none ∧
    (handleNodeinfoNodeUpdate (fun s => s ++ "=")
      ⟨some "old", some "OLD", some "HW", some "CLIENT", some "AA:BB", some "oldkey"⟩
      ⟨"Alice", "ALCE", some "HELTEC", some "ROUTER", "pk"⟩ "AA:BB").publicKey =
      some "pk=" := by
  have h1 := nodeinfo_overwrites_identity_fields (fun s => s ++ "=")
    ⟨some "old", some "OLD", some "HW", some "CLIENT", some "AA:BB", some "oldkey"⟩
    ⟨some "x", none, none, none, none, none⟩
    ⟨"Alice", "ALCE", some "HELTEC", some "ROUTER", ""⟩ "AA:BB"
  have h2 := nodeinfo_overwrites_identity_fields (fun s => s ++ "=")
    ⟨some "old", some "OLD", some "HW", some "CLIENT", some "AA:BB", some "oldkey"⟩
    ⟨some "x", none, none, none, none, none⟩
    ⟨"Alice", "ALCE", some "HELTEC", some "ROUTER", "pk"⟩ "AA:BB"
  exact ⟨h1.2.2.2.1 rfl, h2.2.2.2.2.1 ⟨by decide, by decide⟩⟩

/-- **C10**: for every encrypted non-PKI inbound packet, the ingestion path
never skips decryption for lack of a key: the key handed to `handle_packet`
is the channel psk when non-empty and the hard-coded default `"AQ=="` when
the psk is empty or missing, and the "no key provided" branch is reachable
only for an explicit `None` key, which ingestion never passes (the
signature default is also `"AQ=="`). -/
theorem default_key_decryption (psk : Option String) (key : Option String) :
    handlePacketSymmetricStep (ingestionChannelKey psk) ≠
      SymmetricDecryptStep.skippedNoKey ∧
    handlePacketSymmetricStep (ingestionChannelKey none) = .attempted "AQ==" ∧
    handlePacketSymmetricStep (ingestionChannelKey (some "")) = .attempted "AQ==" ∧
    (∀ s, s ≠ "" →
      handlePacketSymmetricStep (ingestionChannelKey (some s)) = .attempted s) ∧
    (handlePacketSymmetricStep key = .skippedNoKey ↔ key = none) ∧
    handlePacketDefaultKey = some "AQ==" := by
  refine ⟨?_, rfl, ?_, ?_, ?_, rfl⟩
  · cases psk with
    | none => simp [ingestionChannelKey, handlePacketSymmetricStep]
    | some s => simp [ingestionChannelKey, handlePacketSymmetricStep]
  · simp [ingestionChannelKey, handlePacketSymmetricStep]
  · intro s hs
    simp [ingestionChannelKey, handlePacketSymmetricStep, hs]
  · cases key with
    | none => simp [handlePacketSymmetricStep]
    | some k => simp [handlePacketSymmetricStep]

/-- **C10** witness: a channel with empty psk gets the default key
`"AQ=="` attempted, a configured psk is attempted as-is. -/
theorem default_key_decryption_witness :
    handlePacketSymmetricStep (ingestionChannelKey (some "")) =
      .attempted "AQ==" ∧
    handlePacketSymmetricStep (ingestionChannelKey (some "1PG7OiApB1nwvP+rz05p")) =
      .attempted "1PG7OiApB1nwvP+rz05p" := by
  have h := default_key_decryption (some "") none
  have h2 := default_key_decryption (some "1PG7OiApB1nwvP+rz05p") none
  exact ⟨h.2.2.1, h2.2.2.2.1 "1PG7OiApB1nwvP+rz05p" (by decide)⟩

/-- **C2**: placeholder handling of the segment builder: `[A, None, None, B]`
yields exactly the single segment `(A, B, hop_count = 2)` with no SNR for
every SNR list; `[None, A]` and `[A, None]` yield no segments; and trailing
placeholder padding after the last known node never changes the output. -/
theorem segment_builder_placeholder_handling {N S : Type} (a b : N)
    (snrValues : List S) (nodes : List (Option N)) (k : Nat) :
    buildEdgeSegments [some a, none, none, some b] snrValues = [(a, b, none, 2)] ∧
    buildEdgeSegments [none, some a] snrValues = [] ∧
    buildEdgeSegments [some a, none] snrValues = [] ∧
    buildEdgeSegments (nodes ++ List.replicate k none) snrValues =
      buildEdgeSegments nodes snrValues := by
  refine ⟨rfl, rfl, rfl, ?_⟩
  rw [buildEdgeSegments_eq_specSegments, buildEdgeSegments_eq_specSegments,
    specSegments, specSegments, knownEntries, knownEntries,
    knownEntriesFrom_append_replicate_none]

end Stridetastic
